import Mathlib

/-!
Verification of the deployment, download, external-id and delete entry-point
logic of the dynatrace monitoring-as-code repository.

The Go sources are shallowly embedded: pure functions become Lean functions,
the deployment loop's mutable entity map and error list become explicit
state passed through a structural recursion, and calls the code makes on the
tenant client are collected in an explicit call trace.  Collaborator code
that is not part of the analysed files (parameter resolution, template
rendering, id heuristics, the manifest filters, JSON (un)marshalling) is
either kept abstract as a function parameter or modelled from the system
specification; each such definition is marked in its doc comment.
-/

/- ===================== Deployment data model ===================== -/

/-- Coordinate: the `(project, type, configId)` identity triple of a
configuration (`coordinate.Coordinate`). -/
structure Coordinate where
  project : String
  type' : String
  configId : String
deriving DecidableEq, Repr

/-- The zero value of `Coordinate`, as Go produces for `coordinate.Coordinate{}`. -/
def zeroCoordinate : Coordinate := { project := "", type' := "", configId := "" }

/-- Modelled from the spec: the configuration `Type` discriminator — one of
classic API config, settings 2.0 object, or read-only entities (the
`config/v2` type record is not among the analysed files). -/
inductive ConfigType where
  | classic (api : String)
  | settings (schemaId schemaVersion : String)
  | entities (entitiesType : String)
deriving DecidableEq, Repr

/-- The `Api` field of a classic config type (zero value elsewhere). -/
def ConfigType.apiId : ConfigType → String
  | .classic a => a
  | _ => ""

/-- The `SchemaId` field of a settings config type (zero value elsewhere). -/
def ConfigType.schemaId : ConfigType → String
  | .settings s _ => s
  | _ => ""

/-- The `SchemaVersion` field of a settings config type (zero value elsewhere). -/
def ConfigType.schemaVersion : ConfigType → String
  | .settings _ v => v
  | _ => ""

/-- `IsEntities` on the type discriminator. -/
def ConfigType.isEntities : ConfigType → Bool
  | .entities _ => true
  | _ => false

/-- A configuration as the deployment engine consumes it: its coordinate,
type discriminator, skip flag and origin object id.  The template and the
parameter list are only touched through the resolution and rendering
collaborators, which the embedding keeps abstract (fields of `DeployDeps`),
so they need no fields here. -/
structure Config where
  coordinate : Coordinate
  ctype : ConfigType
  skip : Bool
  originObjectId : String
deriving DecidableEq, Repr

/-- Resolved property mapping `propertyName -> value` (`parameter.Properties`),
modelled as an association list with string values. -/
def Properties := List (String × String)
deriving DecidableEq, Repr

/-- Association-list lookup (the read of a Go map). -/
def lookupA {α : Type} [DecidableEq α] {β : Type} : List (α × β) → α → Option β
  | [], _ => none
  | (k, v) :: rest, key => if key = k then some v else lookupA rest key

/-- Association-list insert-or-replace (the write of a Go map). -/
def insertA {α : Type} [DecidableEq α] {β : Type} : List (α × β) → α → β → List (α × β)
  | [], k, v => [(k, v)]
  | (k0, v0) :: rest, k, v => if k = k0 then (k, v) :: rest else (k0, v0) :: insertA rest k v

/-- The reserved `id` property name (`config.IdParameter`). -/
def IdParameter : String := "id"

/-- The reserved `name` property name (`config.NameParameter`). -/
def NameParameter : String := "name"

/-- The reserved `scope` property name (`config.ScopeParameter`). -/
def ScopeParameter : String := "scope"

/-- `parameter.ResolvedEntity`: what deploying one configuration produces. -/
structure ResolvedEntity where
  entityName : String
  coordinate : Coordinate
  properties : Properties
  skip : Bool
deriving DecidableEq, Repr

/-- The zero value of `ResolvedEntity`, as Go produces for
`parameter.ResolvedEntity{}` (returned on every error path). -/
def zeroResolvedEntity : ResolvedEntity :=
  { entityName := "", coordinate := zeroCoordinate, properties := [], skip := false }

/-- Modelled from the spec: the EntityMap — a per-run table mapping Coordinate
to ResolvedEntity which also tracks, per API type, the set of already-used
entity names for duplicate detection (the EntityMap implementation is not
among the analysed files; only its call sites are). -/
structure EntityMap where
  resolved : List (Coordinate × ResolvedEntity)
  knownNames : List (String × String)
deriving DecidableEq, Repr

/-- Modelled from the spec: a fresh, empty entity map (`NewEntityMap`). -/
def newEntityMap : EntityMap := { resolved := [], knownNames := [] }

/-- Modelled from the spec: `EntityMap.PutResolved` stores the entity under
the given coordinate and, when the entity carries a name, marks that name as
used for the coordinate's API type. -/
def EntityMap.putResolved (em : EntityMap) (coord : Coordinate) (e : ResolvedEntity) : EntityMap :=
  { resolved := insertA em.resolved coord e
    knownNames := if e.entityName = "" then em.knownNames
                  else (coord.type', e.entityName) :: em.knownNames }

/-- Modelled from the spec: `EntityMap.Known` — is the name already used for
this API type? -/
def EntityMap.known (em : EntityMap) (apiId name : String) : Bool :=
  em.knownNames.contains (apiId, name)

/-- An API descriptor (`api.Api`): identifier, whether it permits non-unique
names, and the deprecation pointer (empty when none). -/
structure Api where
  id : String
  nonUniqueNameApi : Bool
  deprecatedBy : String
deriving DecidableEq, Repr

/-- `api.DynatraceEntity` as the upsert calls return it (the fields the
deployment engine reads). -/
structure DynatraceEntity where
  id : String
  name : String
deriving DecidableEq, Repr

/-- `client.SettingsObject`: the argument of `UpsertSettings`. -/
structure SettingsObject where
  id : String
  schemaId : String
  schemaVersion : String
  scope : String
  content : String
  originObjectId : String
deriving DecidableEq, Repr

/-- One call the deployment engine makes on the tenant client, recorded in
the embedding's call trace. -/
inductive ClientCall where
  | upsertConfigByName (api : Api) (name : String) (payload : String)
  | upsertConfigByNonUniqueNameAndId (api : Api) (id : String) (name : String) (payload : String)
  | upsertSettings (obj : SettingsObject)
deriving DecidableEq, Repr

/-- The tenant client, abstract: each operation is an arbitrary function
returning either an error text or an entity. -/
structure Client where
  upsertConfigByName : Api → String → String → Except String DynatraceEntity
  upsertConfigByNonUniqueNameAndId : Api → String → String → String → Except String DynatraceEntity
  upsertSettings : SettingsObject → Except String DynatraceEntity

/-- A deployment error.  Plain `fmt.Errorf` texts are `base`; the
coordinate-carrying error `newConfigDeployErr` builds is `configDeployErr`;
the loop's `failed to <verb> config <coordinate>: <err>` wrapping is
`wrapped` (Go's `%w` keeps the wrapped error reachable, so the wrapping is
kept structural). -/
inductive DeployErr where
  | base (msg : String)
  | configDeployErr (coordinate : Coordinate) (msg : String)
  | wrapped (verb : String) (coordinate : Coordinate) (err : DeployErr)
deriving DecidableEq, Repr

/-- The collaborators deployment depends on, kept abstract: parameter
resolution, config-name extraction and template rendering (the `config/v2`
parameter machinery), and the `idutils` id heuristics; none of those
functions is among the analysed files. -/
structure DeployDeps where
  resolveProperties : Config → List (Coordinate × ResolvedEntity) → Properties × List DeployErr
  extractConfigName : Config → Properties → Except DeployErr String
  render : Config → Properties → Except DeployErr String
  isUuid : String → Bool
  isMeId : String → Bool
  generateUuidFromConfigId : String → String → String

/-- `DeployConfigsOptions`. -/
structure DeployConfigsOptions where
  continueOnErr : Bool
  dryRun : Bool
deriving DecidableEq, Repr

/- ===================== Deployment engine ===================== -/

/-- `getWordsForLogging`: the `(action, verb)` word pair for dry-run or real
deployment. -/
def getWordsForLogging (isDryRun : Bool) : String × String :=
  if isDryRun then ("Validating", "validate") else ("Deploying", "deploy")

/-- `upsertNonUniqueNameConfig`: choose the entity id (the configId when it
already is a UUID or an ME-id, else the uuid derived from project and
configId) and call `UpsertConfigByNonUniqueNameAndId`.  Returns the client's
answer together with the call made. -/
def upsertNonUniqueNameConfig (deps : DeployDeps) (client : Client) (apiToDeploy : Api)
    (conf : Config) (configName renderedConfig : String) :
    Except String DynatraceEntity × ClientCall :=
  let configId := conf.coordinate.configId
  let projectId := conf.coordinate.project
  let isUuidOrMeId := deps.isUuid configId || deps.isMeId configId
  let entityUuid := if isUuidOrMeId then configId
                    else deps.generateUuidFromConfigId projectId configId
  (client.upsertConfigByNonUniqueNameAndId apiToDeploy entityUuid configName renderedConfig,
   ClientCall.upsertConfigByNonUniqueNameAndId apiToDeploy entityUuid configName renderedConfig)

/-- `extractScope`: read the reserved `scope` property; missing or empty is
an error. -/
def extractScope (properties : Properties) : Except DeployErr String :=
  match lookupA properties ScopeParameter with
  | none => .error (.base ("property `" ++ ScopeParameter ++ "` not found, this is most likely a bug"))
  | some scope => if scope = "" then .error (.base "resolved scope is empty") else .ok scope

/-- `deployConfig`: deploy one classic config.  Result is the Go pair
(zero entity on error, errors) plus the trace of client calls made. -/
def deployConfig (deps : DeployDeps) (client : Client) (apis : String → Option Api)
    (entityMap : EntityMap) (conf : Config) :
    ResolvedEntity × List DeployErr × List ClientCall :=
  match apis conf.coordinate.type' with
  | none =>
    (zeroResolvedEntity,
     [.base ("unknown api `" ++ conf.ctype.apiId ++ "`. this is most likely a bug")], [])
  | some apiToDeploy =>
    match deps.resolveProperties conf entityMap.resolved with
    | (properties, resolveErrors) =>
      if resolveErrors.isEmpty then
        match deps.extractConfigName conf properties with
        | .error err => (zeroResolvedEntity, [err], [])
        | .ok configName =>
          if entityMap.known apiToDeploy.id configName && !apiToDeploy.nonUniqueNameApi then
            (zeroResolvedEntity,
             [.configDeployErr conf.coordinate ("duplicated config name `" ++ configName ++ "`")],
             [])
          else
            match deps.render conf properties with
            | .error err => (zeroResolvedEntity, [err], [])
            | .ok renderedConfig =>
              match (if apiToDeploy.nonUniqueNameApi then
                       upsertNonUniqueNameConfig deps client apiToDeploy conf configName renderedConfig
                     else
                       (client.upsertConfigByName apiToDeploy configName renderedConfig,
                        ClientCall.upsertConfigByName apiToDeploy configName renderedConfig)) with
              | (.error e, call) =>
                (zeroResolvedEntity, [.configDeployErr conf.coordinate e], [call])
              | (.ok entity, call) =>
                ({ entityName := entity.name, coordinate := conf.coordinate,
                   properties :=
                     insertA (insertA properties IdParameter entity.id) NameParameter entity.name,
                   skip := false }, [], [call])
      else (zeroResolvedEntity, resolveErrors, [])

/-- `deploySetting`: deploy one settings 2.0 object. -/
def deploySetting (deps : DeployDeps) (client : Client) (entityMap : EntityMap) (c : Config) :
    ResolvedEntity × List DeployErr × List ClientCall :=
  match deps.resolveProperties c entityMap.resolved with
  | (properties, resolveErrors) =>
    if resolveErrors.isEmpty then
      match extractScope properties with
      | .error err => (zeroResolvedEntity, [err], [])
      | .ok scope =>
        match deps.render c properties with
        | .error err => (zeroResolvedEntity, [err], [])
        | .ok renderedConfig =>
          match client.upsertSettings
              { id := c.coordinate.configId, schemaId := c.ctype.schemaId,
                schemaVersion := c.ctype.schemaVersion, scope := scope,
                content := renderedConfig, originObjectId := c.originObjectId } with
          | .error e =>
            (zeroResolvedEntity, [.configDeployErr c.coordinate e],
             [.upsertSettings
                { id := c.coordinate.configId, schemaId := c.ctype.schemaId,
                  schemaVersion := c.ctype.schemaVersion, scope := scope,
                  content := renderedConfig, originObjectId := c.originObjectId }])
          | .ok entity =>
            ({ entityName := entity.name, coordinate := c.coordinate,
               properties := insertA (insertA properties IdParameter entity.id) NameParameter entity.name,
               skip := false },
             [],
             [.upsertSettings
                { id := c.coordinate.configId, schemaId := c.ctype.schemaId,
                  schemaVersion := c.ctype.schemaVersion, scope := scope,
                  content := renderedConfig, originObjectId := c.originObjectId }])
    else (zeroResolvedEntity, resolveErrors, [])

/-- The type dispatch of `DeployConfigs`' loop body: entities configs are not
deployable (zero result, no errors), settings go to `deploySetting`, the
default goes to `deployConfig`. -/
def deployDispatch (deps : DeployDeps) (client : Client) (apis : String → Option Api)
    (em : EntityMap) (c : Config) : ResolvedEntity × List DeployErr × List ClientCall :=
  match c.ctype with
  | .entities _ => (zeroResolvedEntity, [], [])
  | .settings _ _ => deploySetting deps client em c
  | .classic _ => deployConfig deps client apis em c

/-- The loop of `DeployConfigs`, with the mutable entity map, error list and
call trace as explicit state.  A skipped config records a skipped entity
under its own coordinate; otherwise the dispatch result is wrapped on error
(`failed to <verb> config <coordinate>`), the loop returns early when
neither continue-on-error nor dry-run is set, and in every surviving case
`PutResolved(entity.Coordinate, entity)` runs before the next config. -/
def deployLoop (deps : DeployDeps) (client : Client) (apis : String → Option Api)
    (opts : DeployConfigsOptions) :
    List Config → EntityMap → List DeployErr → List ClientCall →
    List DeployErr × EntityMap × List ClientCall
  | [], em, errors, calls => (errors, em, calls)
  | c :: rest, em, errors, calls =>
    if c.skip then
      deployLoop deps client apis opts rest
        (em.putResolved c.coordinate
          { entityName := c.coordinate.configId, coordinate := c.coordinate,
            properties := [], skip := true })
        errors calls
    else
      match deployDispatch deps client apis em c with
      | (entity, deploymentErrors, newCalls) =>
        if deploymentErrors.isEmpty then
          deployLoop deps client apis opts rest
            (em.putResolved entity.coordinate entity) errors (calls ++ newCalls)
        else
          let errors2 := errors ++ deploymentErrors.map
            (DeployErr.wrapped (getWordsForLogging opts.dryRun).2 c.coordinate)
          if !opts.continueOnErr && !opts.dryRun then
            (errors2, em, calls ++ newCalls)
          else
            deployLoop deps client apis opts rest
              (em.putResolved entity.coordinate entity) errors2 (calls ++ newCalls)

/-- `DeployConfigs` with its full final state exposed: the returned errors,
the final entity map and the trace of client calls. -/
def DeployConfigsFull (deps : DeployDeps) (client : Client) (apis : String → Option Api)
    (sortedConfigs : List Config) (opts : DeployConfigsOptions) :
    List DeployErr × EntityMap × List ClientCall :=
  deployLoop deps client apis opts sortedConfigs newEntityMap [] []

/-- `DeployConfigs`: deploy the sorted configs, returning the error list. -/
def DeployConfigs (deps : DeployDeps) (client : Client) (apis : String → Option Api)
    (sortedConfigs : List Config) (opts : DeployConfigsOptions) : List DeployErr :=
  (DeployConfigsFull deps client apis sortedConfigs opts).1

/- ===================== Download engine ===================== -/

/-- `client.DownloadSettingsObject` as `ListSettings` returns it; `value` is
the raw JSON text. -/
structure DownloadSettingsObject where
  objectId : String
  value : String
  schemaId : String
  schemaVersion : String
  scope : String
deriving DecidableEq, Repr

/-- A download template (`template.NewDownloadTemplate(id, name, content)`). -/
structure Template where
  id : String
  name : String
  content : String
deriving DecidableEq, Repr

/-- A configuration as the download engine constructs it: the template, the
coordinate, the settings type, the literal `name` and `scope` value
parameters, the skip flag and the origin object id. -/
structure DlConfig where
  template : Template
  coordinate : Coordinate
  schemaId : String
  schemaVersion : String
  nameParam : String
  scopeParam : String
  skip : Bool
  originObjectId : String
deriving DecidableEq, Repr

/-- The download collaborators, kept abstract: the settings client's
`ListSettings`, the JSON library's unmarshal-into-object (`none` on parse
failure) and two-space `MarshalIndent` (`none` on error), the per-schema
discard filter `filters.Get(schemaId).ShouldDiscard` (with its reason), and
`idutils.GenerateUuidFromName`; none of those is among the analysed files. -/
structure DownloadDeps where
  listSettings : String → Except String (List DownloadSettingsObject)
  unmarshalObject : String → Option (List (String × String))
  marshalIndent : String → Option String
  shouldDiscard : String → List (String × String) → Bool × String
  generateUuidFromName : String → String

/-- `Downloader.convertAllObjects`: convert downloaded settings objects in
listing order.  A value that fails to unmarshal ends the conversion with the
result built so far; a discarded object is skipped; otherwise a config with
a generated id is appended. -/
def convertAllObjects (deps : DownloadDeps) (projectName : String) :
    List DownloadSettingsObject → List DlConfig
  | [] => []
  | o :: rest =>
    match deps.unmarshalObject o.value with
    | none => []
    | some contentUnmarshalled =>
      if (deps.shouldDiscard o.schemaId contentUnmarshalled).1 then
        convertAllObjects deps projectName rest
      else
        let content := match deps.marshalIndent o.value with
          | some bytes => bytes
          | none => o.value
        let configId := deps.generateUuidFromName o.objectId
        { template := { id := configId, name := configId, content := content },
          coordinate := { project := projectName, type' := o.schemaId, configId := configId },
          schemaId := o.schemaId, schemaVersion := o.schemaVersion,
          nameParam := configId, scopeParam := o.scope,
          skip := false, originObjectId := o.objectId } ::
        convertAllObjects deps projectName rest

/-- `Downloader.download`: one fetch-and-convert task per schema.  A failed
fetch or an empty object list adds no entry; otherwise the converted configs
are stored under the schema id.  The concurrent tasks share only the result
map, each writing its own key under one mutex, and each task's result is a
pure function of its schema, so the map is modelled as the association list
a sequential run builds. -/
def download (deps : DownloadDeps) (projectName : String) :
    List String → List (String × List DlConfig)
  | [] => []
  | s :: rest =>
    let restResults := download deps projectName rest
    match deps.listSettings s with
    | .error _ => restResults
    | .ok objects =>
      if objects.isEmpty then restResults
      else (s, convertAllObjects deps projectName objects) :: restResults

/- ===================== External IDs ===================== -/

/-- The byte values of the standard base64 alphabet, index 0..63. -/
def base64Char (i : Nat) : Nat :=
  if i < 26 then 65 + i
  else if i < 52 then 97 + (i - 26)
  else if i < 62 then 48 + (i - 52)
  else if i = 62 then 43
  else 47

/-- `base64.StdEncoding.EncodeToString` over byte lists: three input bytes
become four alphabet bytes, a two-byte tail becomes three plus one pad and a
one-byte tail two plus two pads (61 is the pad byte `=`). -/
def base64Encode : List Nat → List Nat
  | [] => []
  | [b1] => [base64Char (b1 / 4), base64Char (b1 % 4 * 16), 61, 61]
  | [b1, b2] =>
    [base64Char (b1 / 4), base64Char (b1 % 4 * 16 + b2 / 16), base64Char (b2 % 16 * 4), 61]
  | b1 :: b2 :: b3 :: rest =>
    base64Char (b1 / 4) :: base64Char (b1 % 4 * 16 + b2 / 16) ::
    base64Char (b2 % 16 * 4 + b3 / 64) :: base64Char (b3 % 64) :: base64Encode rest

/-- The byte spelling of the `monaco:` literal. -/
def monacoBytes : List Nat := [109, 111, 110, 97, 99, 111, 58]

/-- `idutils.GenerateExternalID` over byte lists (Go strings are byte
slices): base64-encode `schema ++ "$" ++ id` (36 is the `$` byte), cut the
encoding at index `500 - 7` when it is longer than that, and put `monaco:`
in front. -/
def GenerateExternalID (schema ID : List Nat) : List Nat :=
  let formattedID := schema ++ 36 :: ID
  let encodedID := base64Encode formattedID
  let encodedIDMaxLength := 500 - monacoBytes.length
  let truncated := if encodedIDMaxLength < encodedID.length
                   then encodedID.drop encodedIDMaxLength else encodedID
  monacoBytes ++ truncated

/- ===================== Delete entry point ===================== -/

/-- `manifest.EnvironmentDefinition` (the fields the delete path's
environment selection reads: the name and the group). -/
structure EnvironmentDefinition where
  name : String
  group : String
deriving DecidableEq, Repr

/-- Modelled from the spec: `Environments.FilterByGroup` keeps the
environments of the given group (the manifest environment collection is not
among the analysed files). -/
def filterByGroup (envs : List EnvironmentDefinition) (g : String) : List EnvironmentDefinition :=
  envs.filter (fun e => e.group == g)

/-- Modelled from the spec: `Environments.FilterByNames` keeps the
environments with the requested names and fails when a requested name is not
in the collection. -/
def filterByNames (envs : List EnvironmentDefinition) (names : List String) :
    Except String (List EnvironmentDefinition) :=
  if names.all (fun n => envs.any (fun e => e.name == n)) then
    .ok (envs.filter (fun e => names.contains e.name))
  else .error "unknown environment"

/-- The environment selection of the `Delete` entry point: start from the
manifest's environments; a non-empty group filters them (empty outcome is an
error); a non-empty name list then filters `manifest.Environments` — the
full set — by those names. -/
def deleteSelectEnvironments (manifestEnvironments : List EnvironmentDefinition)
    (environmentNames : List String) (environmentGroup : String) :
    Except String (List EnvironmentDefinition) :=
  match (if environmentGroup ≠ "" then
           (if (filterByGroup manifestEnvironments environmentGroup).length = 0 then
              Except.error ("no environments in group " ++ environmentGroup)
            else Except.ok (filterByGroup manifestEnvironments environmentGroup))
         else Except.ok manifestEnvironments) with
  | .error e => .error e
  | .ok environments =>
    if environmentNames.length > 0 then
      match filterByNames manifestEnvironments environmentNames with
      | .error e => .error ("failed to load environments: " ++ e)
      | .ok envs => .ok envs
    else .ok environments

/- ===================== Concrete instances for evaluation ===================== -/

/-- A unique-name API descriptor. -/
def exApi : Api := { id := "api1", nonUniqueNameApi := false, deprecatedBy := "" }

/-- An API map knowing only `api1`. -/
def exApis : String → Option Api := fun t => if t = "api1" then some exApi else none

/-- An API map knowing nothing (every lookup fails). -/
def apisNone : String → Option Api := fun _ => none

/-- A client that answers every upsert successfully, echoing the requested
name (and the requested id for by-id upserts). -/
def exClient : Client :=
  { upsertConfigByName := fun _ name _ => .ok { id := "dt-id-1", name := name }
    upsertConfigByNonUniqueNameAndId := fun _ i name _ => .ok { id := i, name := name }
    upsertSettings := fun obj => .ok { id := obj.id, name := obj.id } }

/-- Deployment collaborators for concrete runs: every config resolves to the
single property `name = "N"`, the config name is read from that property,
rendering yields `"body"`, and the id heuristics treat nothing as a UUID. -/
def exDeps : DeployDeps :=
  { resolveProperties := fun _ _ => ([(NameParameter, "N")], [])
    extractConfigName := fun _ props =>
      match lookupA props NameParameter with
      | some n => .ok n
      | none => .error (.base "missing name")
    render := fun _ _ => .ok "body"
    isUuid := fun _ => false
    isMeId := fun _ => false
    generateUuidFromConfigId := fun p c => p ++ "-" ++ c }

/-- A classic config of api `api1`, id `c1`. -/
def cfgClassic1 : Config :=
  { coordinate := { project := "p", type' := "api1", configId := "c1" }
    ctype := .classic "api1", skip := false, originObjectId := "" }

/-- The entity id `upsertNonUniqueNameConfig` sends upstream: the configId
itself when the id heuristics accept it as a UUID or ME-id, else the uuid
derived from project and configId. -/
def nonUniqueEntityId (deps : DeployDeps) (conf : Config) : String :=
  if deps.isUuid conf.coordinate.configId || deps.isMeId conf.coordinate.configId
  then conf.coordinate.configId
  else deps.generateUuidFromConfigId conf.coordinate.project conf.coordinate.configId

/-- A classic config with the same project and configId as `cfgClassic1` but
a different type. -/
def cfgClassic1b : Config :=
  { coordinate := { project := "p", type' := "api2", configId := "c1" }
    ctype := .classic "api2", skip := false, originObjectId := "other" }

/-- A classic config of api `api1`, id `c2`. -/
def cfgClassic2 : Config :=
  { coordinate := { project := "p", type' := "api1", configId := "c2" }
    ctype := .classic "api1", skip := false, originObjectId := "" }

/-- A classic config whose api is unknown to `apisNone` and `exApis`. -/
def cfgUnknown : Config :=
  { coordinate := { project := "p", type' := "t", configId := "c" }
    ctype := .classic "t", skip := false, originObjectId := "" }

/-- A config with the skip flag set. -/
def cfgSkipped : Config :=
  { coordinate := { project := "p", type' := "api1", configId := "sk" }
    ctype := .classic "api1", skip := true, originObjectId := "" }

/-- A settings 2.0 config. -/
def cfgSettings : Config :=
  { coordinate := { project := "p", type' := "schema1", configId := "cs" }
    ctype := .settings "schema1" "v1", skip := false, originObjectId := "origin-1" }

/-- Deployment collaborators whose resolution yields a non-empty scope. -/
def scopeDeps : DeployDeps :=
  { exDeps with resolveProperties := fun _ _ => ([(ScopeParameter, "HOST-1")], []) }

/-- Deployment collaborators whose resolution yields no scope property. -/
def noScopeDeps : DeployDeps :=
  { exDeps with resolveProperties := fun _ _ => ([], []) }

/-- A well-formed downloaded settings object (its value unmarshals). -/
def dlObjGood : DownloadSettingsObject :=
  { objectId := "o1", value := "\x7b\x7d", schemaId := "s", schemaVersion := "1", scope := "env" }

/-- A downloaded settings object whose value fails to unmarshal. -/
def dlObjBad : DownloadSettingsObject :=
  { objectId := "o2", value := "oops", schemaId := "s", schemaVersion := "1", scope := "env" }

/-- Download collaborators for concrete runs: schema `s` lists exactly the
bad object, any other schema fails; only the two-byte object text
unmarshals; nothing is discarded. -/
def dlDeps : DownloadDeps :=
  { listSettings := fun s => if s = "s" then .ok [dlObjBad] else .error "http failure"
    unmarshalObject := fun v => if v = "\x7b\x7d" then some [] else none
    marshalIndent := fun v => some v
    shouldDiscard := fun _ _ => (false, "")
    generateUuidFromName := fun n => "uuid-" ++ n }

/-- Two manifest environments in two groups. -/
def envsEx : List EnvironmentDefinition :=
  [{ name := "e1", group := "g1" }, { name := "e2", group := "g2" }]

deriving instance DecidableEq for Except

/- ===================== Helper lemmas ===================== -/

theorem lookupA_insertA_self {α β : Type} [DecidableEq α] (l : List (α × β)) (k : α) (v : β) :
    lookupA (insertA l k v) k = some v := by
  induction l with
  | nil => simp [insertA, lookupA]
  | cons hd tl ih =>
    obtain ⟨k0, v0⟩ := hd
    by_cases hk : k = k0
    · simp [insertA, hk, lookupA]
    · simp [insertA, hk, lookupA, ih]

theorem GenerateExternalID_length (schema ID : List Nat) :
    (GenerateExternalID schema ID).length =
      7 + (if 493 < (base64Encode (schema ++ 36 :: ID)).length
           then (base64Encode (schema ++ 36 :: ID)).length - 493
           else (base64Encode (schema ++ 36 :: ID)).length) := by
  unfold GenerateExternalID
  simp only [show (500 : Nat) - monacoBytes.length = 493 from rfl,
             show monacoBytes.length = 7 from rfl, List.length_append]
  by_cases h : 493 < (base64Encode (schema ++ 36 :: ID)).length
  · simp [h, List.length_drop]
  · simp [h]

theorem base64Encode_length (l : List Nat) :
    (base64Encode l).length = 4 * ((l.length + 2) / 3) := by
  induction l using base64Encode.induct with
  | case1 => simp [base64Encode]
  | case2 b1 => simp [base64Encode]
  | case3 b1 b2 => simp [base64Encode]
  | case4 b1 b2 b3 rest ih => simp [base64Encode, ih]; omega

theorem deployConfig_shape (deps : DeployDeps) (client : Client) (apis : String → Option Api)
    (em : EntityMap) (conf : Config) :
    ((deployConfig deps client apis em conf).1 = zeroResolvedEntity ∧
     (deployConfig deps client apis em conf).2.1 ≠ []) ∨
    ((deployConfig deps client apis em conf).1.coordinate = conf.coordinate ∧
     (deployConfig deps client apis em conf).2.1 = []) := by
  unfold deployConfig
  split
  · exact Or.inl ⟨rfl, by simp⟩
  · split
    split
    · split
      · exact Or.inl ⟨rfl, by simp⟩
      · split
        · exact Or.inl ⟨rfl, by simp⟩
        · split
          · exact Or.inl ⟨rfl, by simp⟩
          · split
            · exact Or.inl ⟨rfl, by simp⟩
            · exact Or.inr ⟨rfl, rfl⟩
    · rename_i hne
      refine Or.inl ⟨rfl, ?_⟩
      intro hnil
      exact hne (by simp only [List.isEmpty_eq_true]; exact hnil)

theorem deploySetting_shape (deps : DeployDeps) (client : Client)
    (em : EntityMap) (c : Config) :
    ((deploySetting deps client em c).1 = zeroResolvedEntity ∧
     (deploySetting deps client em c).2.1 ≠ []) ∨
    ((deploySetting deps client em c).1.coordinate = c.coordinate ∧
     (deploySetting deps client em c).2.1 = []) := by
  unfold deploySetting
  split
  split
  · split
    · exact Or.inl ⟨rfl, by simp⟩
    · split
      · exact Or.inl ⟨rfl, by simp⟩
      · split
        · exact Or.inl ⟨rfl, by simp⟩
        · exact Or.inr ⟨rfl, rfl⟩
  · rename_i hne
    refine Or.inl ⟨rfl, ?_⟩
    intro hnil
    exact hne (by simp only [List.isEmpty_eq_true]; exact hnil)

/- ===================== Claim C4 ===================== -/

/-- Claim C4: the spec and the function's own comment promise an external ID
of length at most 500 with left truncation to the last 493 encoded
characters; the code instead keeps the characters AFTER index 493, so at
this input (schema of 700 bytes, id of 39 bytes, encoding 988 bytes long)
the produced external ID has length 502 > 500. -/
theorem GenerateExternalID_length_violation :
    (GenerateExternalID (List.replicate 700 97) (List.replicate 39 98)).length = 502 ∧
    500 < (GenerateExternalID (List.replicate 700 97) (List.replicate 39 98)).length := by
  have henc : (base64Encode (List.replicate 700 97 ++ 36 :: List.replicate 39 98)).length = 988 := by
    rw [base64Encode_length]
    simp only [List.length_append, List.length_replicate, List.length_cons]
  have hlen : (GenerateExternalID (List.replicate 700 97) (List.replicate 39 98)).length = 502 := by
    rw [GenerateExternalID_length]
    simp only [henc]
    norm_num
  exact ⟨hlen, by rw [hlen]; norm_num⟩

/- ===================== Claim C7 ===================== -/

/-- Claim C7: the id passed to `UpsertConfigByNonUniqueNameAndId` is the
configId when the heuristics call it a UUID or ME-id, else the uuid derived
from project and configId (`nonUniqueEntityId`); that id is a function of
the coordinate's project and configId only, hence identical across reruns. -/
theorem upsertNonUniqueNameConfig_stable_id (deps : DeployDeps) (client : Client) :
    (∀ (api : Api) (conf : Config) (configName renderedConfig : String),
      (upsertNonUniqueNameConfig deps client api conf configName renderedConfig).2 =
        ClientCall.upsertConfigByNonUniqueNameAndId api (nonUniqueEntityId deps conf)
          configName renderedConfig) ∧
    (∀ conf conf' : Config,
      conf.coordinate.project = conf'.coordinate.project →
      conf.coordinate.configId = conf'.coordinate.configId →
      nonUniqueEntityId deps conf = nonUniqueEntityId deps conf') := by
  constructor
  · intro api conf configName renderedConfig
    rfl
  · intro conf conf' hp hc
    unfold nonUniqueEntityId
    rw [hp, hc]

/-- Witness for C7 at a concrete API, client and two configs sharing project
and configId. -/
theorem upsertNonUniqueNameConfig_stable_id_witness :
    (upsertNonUniqueNameConfig exDeps exClient exApi cfgClassic1 "N" "body").2 =
      ClientCall.upsertConfigByNonUniqueNameAndId exApi (nonUniqueEntityId exDeps cfgClassic1)
        "N" "body" ∧
    nonUniqueEntityId exDeps cfgClassic1 = nonUniqueEntityId exDeps cfgClassic1b :=
  ⟨(upsertNonUniqueNameConfig_stable_id exDeps exClient).1 exApi cfgClassic1 "N" "body",
   (upsertNonUniqueNameConfig_stable_id exDeps exClient).2 cfgClassic1 cfgClassic1b rfl rfl⟩

/- ===================== Claim C8 ===================== -/

/-- Claim C8: a config with `skip = true` causes no client call and no
error; the loop records, under the config's own coordinate, a ResolvedEntity
with `skip = true`, empty properties and the configId as entity name, and
continues with the rest. -/
theorem deployLoop_skip_records_skip_entity (deps : DeployDeps) (client : Client)
    (apis : String → Option Api) (opts : DeployConfigsOptions)
    (em : EntityMap) (errors : List DeployErr) (calls : List ClientCall)
    (c : Config) (rest : List Config) (hskip : c.skip = true) :
    deployLoop deps client apis opts (c :: rest) em errors calls =
      deployLoop deps client apis opts rest
        (em.putResolved c.coordinate
          { entityName := c.coordinate.configId, coordinate := c.coordinate,
            properties := [], skip := true })
        errors calls ∧
    lookupA (em.putResolved c.coordinate
        { entityName := c.coordinate.configId, coordinate := c.coordinate,
          properties := [], skip := true }).resolved c.coordinate =
      some { entityName := c.coordinate.configId, coordinate := c.coordinate,
             properties := [], skip := true } := by
  constructor
  · simp [deployLoop, hskip]
  · simp only [EntityMap.putResolved]
    exact lookupA_insertA_self _ _ _

/-- Witness for C8 at a concrete skipped config and empty initial state. -/
theorem deployLoop_skip_witness :
    deployLoop exDeps exClient exApis { continueOnErr := false, dryRun := false }
        [cfgSkipped] newEntityMap [] [] =
      deployLoop exDeps exClient exApis { continueOnErr := false, dryRun := false } []
        (newEntityMap.putResolved cfgSkipped.coordinate
          { entityName := cfgSkipped.coordinate.configId, coordinate := cfgSkipped.coordinate,
            properties := [], skip := true })
        [] [] ∧
    lookupA (newEntityMap.putResolved cfgSkipped.coordinate
        { entityName := cfgSkipped.coordinate.configId, coordinate := cfgSkipped.coordinate,
          properties := [], skip := true }).resolved cfgSkipped.coordinate =
      some { entityName := cfgSkipped.coordinate.configId, coordinate := cfgSkipped.coordinate,
             properties := [], skip := true } :=
  deployLoop_skip_records_skip_entity exDeps exClient exApis
    { continueOnErr := false, dryRun := false } newEntityMap [] [] cfgSkipped [] rfl

/- ===================== Claim C9 ===================== -/

/-- Claim C9: when a downloaded object's value fails to parse, conversion of
the schema stops there: the result is exactly the conversion of the objects
preceding the failing one in listing order, and objects after it are
dropped. -/
theorem convertAllObjects_stops_at_first_parse_failure (deps : DownloadDeps)
    (projectName : String) (pre : List DownloadSettingsObject)
    (bad : DownloadSettingsObject) (post : List DownloadSettingsObject)
    (hpre : ∀ o ∈ pre, deps.unmarshalObject o.value ≠ none)
    (hbad : deps.unmarshalObject bad.value = none) :
    convertAllObjects deps projectName (pre ++ bad :: post) =
      convertAllObjects deps projectName pre := by
  induction pre with
  | nil => simp [convertAllObjects, hbad]
  | cons o rest ih =>
    have ho := hpre o (by simp)
    obtain ⟨v, hv⟩ := Option.ne_none_iff_exists'.mp ho
    have hrest : ∀ o ∈ rest, deps.unmarshalObject o.value ≠ none := by
      intro o' ho'
      exact hpre o' (by simp [ho'])
    rw [List.cons_append]
    simp only [convertAllObjects, hv]
    by_cases hd : (deps.shouldDiscard o.schemaId v).1 <;> simp [hd, ih hrest]

/-- Witness for C9: one good object before the unparseable one, one object
after it; the result equals the conversion of the good prefix alone. -/
theorem convertAllObjects_stops_witness :
    convertAllObjects dlDeps "proj" ([dlObjGood] ++ dlObjBad :: [dlObjGood]) =
      convertAllObjects dlDeps "proj" [dlObjGood] :=
  convertAllObjects_stops_at_first_parse_failure dlDeps "proj" [dlObjGood] dlObjBad [dlObjGood]
    (by decide) (by decide)

/- ===================== Claim C10 ===================== -/

/-- Claim C10: whenever the environment-name list is non-empty and the
Delete entry point's selection succeeds, the selected environments are the
name filter applied to the manifest's FULL environment set, so a previously
applied group filter has no effect on the final selection. -/
theorem deleteSelectEnvironments_names_use_full_set
    (envs : List EnvironmentDefinition) (names : List String) (g : String)
    (res : List EnvironmentDefinition)
    (hnames : names ≠ [])
    (hok : deleteSelectEnvironments envs names g = .ok res) :
    filterByNames envs names = .ok res ∧
    deleteSelectEnvironments envs names "" = .ok res := by
  have hlen : 0 < names.length := List.length_pos.mpr hnames
  have hfn : filterByNames envs names = .ok res := by
    unfold deleteSelectEnvironments at hok
    split at hok
    · exact absurd hok (by simp)
    · rw [if_pos hlen] at hok
      split at hok
      · exact absurd hok (by simp)
      · rename_i envs' heq
        cases hok
        exact heq
  refine ⟨hfn, ?_⟩
  unfold deleteSelectEnvironments
  simp [hfn, hlen]

/-- Witness for C10: two environments in two groups, group filter `g1`,
name filter `e2`: the selection is the `e2` environment, exactly what the
name filter of the full set yields. -/
theorem deleteSelectEnvironments_witness :
    filterByNames envsEx ["e2"] = .ok [{ name := "e2", group := "g2" }] ∧
    deleteSelectEnvironments envsEx ["e2"] "" = .ok [{ name := "e2", group := "g2" }] :=
  deleteSelectEnvironments_names_use_full_set envsEx ["e2"] "g1"
    [{ name := "e2", group := "g2" }] (by decide) (by decide)

/- ===================== Claim C1 ===================== -/

/-- Claim C1 counterexample: one classic config whose api lookup fails,
deployed with continue-on-error, so the iteration completes; afterwards the
entity map has NO entry under the config's own coordinate — the zero-value
entity was recorded under the zero-value coordinate instead — refuting the
claim that every processed config (also on error) is recorded under its own
coordinate. -/
theorem deployConfigs_error_entry_missing :
    lookupA (DeployConfigsFull exDeps exClient apisNone [cfgUnknown]
        { continueOnErr := true, dryRun := false }).2.1.resolved cfgUnknown.coordinate = none ∧
    (DeployConfigsFull exDeps exClient apisNone [cfgUnknown]
        { continueOnErr := true, dryRun := false }).2.1.resolved =
      [(zeroCoordinate, zeroResolvedEntity)] ∧
    (DeployConfigsFull exDeps exClient apisNone [cfgUnknown]
        { continueOnErr := true, dryRun := false }).1 ≠ [] := by
  decide

/-- Claim C1 (amended): a skipped config is recorded under its own
coordinate; a config deployed without errors is recorded under the returned
entity's coordinate, which is the config's own for settings and classic
configs; an entities-type config yields the zero entity, and a config whose
deployment returned errors likewise yields the zero entity, recorded under
the zero coordinate when the run continues (and nothing is recorded when the
run stops at the error). -/
theorem deployLoop_recording_policy (deps : DeployDeps) (client : Client)
    (apis : String → Option Api) (opts : DeployConfigsOptions) :
    (∀ (em : EntityMap) (errors : List DeployErr) (calls : List ClientCall)
       (c : Config) (rest : List Config), c.skip = true →
      deployLoop deps client apis opts (c :: rest) em errors calls =
        deployLoop deps client apis opts rest
          (em.putResolved c.coordinate
            { entityName := c.coordinate.configId, coordinate := c.coordinate,
              properties := [], skip := true }) errors calls) ∧
    (∀ (em : EntityMap) (c : Config) (entity : ResolvedEntity) (cs : List ClientCall),
      c.ctype.isEntities = false →
      deployDispatch deps client apis em c = (entity, [], cs) →
      entity.coordinate = c.coordinate) ∧
    (∀ (em : EntityMap) (c : Config) (entity : ResolvedEntity)
       (es : List DeployErr) (cs : List ClientCall),
      deployDispatch deps client apis em c = (entity, es, cs) → es ≠ [] →
      entity = zeroResolvedEntity) ∧
    (∀ (em : EntityMap) (c : Config), c.ctype.isEntities = true →
      deployDispatch deps client apis em c = (zeroResolvedEntity, [], [])) ∧
    (∀ (em : EntityMap) (errors : List DeployErr) (calls : List ClientCall)
       (c : Config) (rest : List Config) (entity : ResolvedEntity)
       (es : List DeployErr) (cs : List ClientCall), c.skip = false →
      deployDispatch deps client apis em c = (entity, es, cs) →
      (es = [] ∨ opts.continueOnErr = true ∨ opts.dryRun = true) →
      deployLoop deps client apis opts (c :: rest) em errors calls =
        deployLoop deps client apis opts rest (em.putResolved entity.coordinate entity)
          (errors ++ es.map (DeployErr.wrapped (getWordsForLogging opts.dryRun).2 c.coordinate))
          (calls ++ cs)) := by
  refine ⟨?_, ?_, ?_, ?_, ?_⟩
  · intro em errors calls c rest hskip
    simp [deployLoop, hskip]
  · intro em c entity cs hent hd
    cases hct : c.ctype with
    | entities et => rw [hct] at hent; simp [ConfigType.isEntities] at hent
    | settings sid sv =>
      unfold deployDispatch at hd
      rw [hct] at hd
      have hd' : deploySetting deps client em c = (entity, [], cs) := hd
      rcases deploySetting_shape deps client em c with ⟨_, hne⟩ | ⟨hcoord, _⟩
      · rw [hd'] at hne; simp at hne
      · rw [hd'] at hcoord; exact hcoord
    | classic a =>
      unfold deployDispatch at hd
      rw [hct] at hd
      have hd' : deployConfig deps client apis em c = (entity, [], cs) := hd
      rcases deployConfig_shape deps client apis em c with ⟨_, hne⟩ | ⟨hcoord, _⟩
      · rw [hd'] at hne; simp at hne
      · rw [hd'] at hcoord; exact hcoord
  · intro em c entity es cs hd hne
    cases hct : c.ctype with
    | entities et =>
      unfold deployDispatch at hd
      rw [hct] at hd
      have hd' : (zeroResolvedEntity, ([] : List DeployErr), ([] : List ClientCall)) =
          (entity, es, cs) := hd
      cases hd'
      exact absurd rfl hne
    | settings sid sv =>
      unfold deployDispatch at hd
      rw [hct] at hd
      have hd' : deploySetting deps client em c = (entity, es, cs) := hd
      rcases deploySetting_shape deps client em c with ⟨hz, _⟩ | ⟨_, hnil⟩
      · rw [hd'] at hz; exact hz
      · rw [hd'] at hnil; exact absurd hnil hne
    | classic a =>
      unfold deployDispatch at hd
      rw [hct] at hd
      have hd' : deployConfig deps client apis em c = (entity, es, cs) := hd
      rcases deployConfig_shape deps client apis em c with ⟨hz, _⟩ | ⟨_, hnil⟩
      · rw [hd'] at hz; exact hz
      · rw [hd'] at hnil; exact absurd hnil hne
  · intro em c hent
    cases hct : c.ctype with
    | entities et => unfold deployDispatch; rw [hct]
    | settings sid sv => rw [hct] at hent; simp [ConfigType.isEntities] at hent
    | classic a => rw [hct] at hent; simp [ConfigType.isEntities] at hent
  · intro em errors calls c rest entity es cs hskip hd hcont
    simp only [deployLoop, hskip, Bool.false_eq_true, if_false, hd]
    cases es with
    | nil => simp
    | cons e es' =>
      have hbb : (!opts.continueOnErr && !opts.dryRun) = false := by
        rcases hcont with h | h | h
        · exact absurd h (by simp)
        · simp [h]
        · simp [h]
      simp [hbb]

/-- Witness for the amended C1 at concrete inputs: the skip step and the
error-continue step both evaluated on the example configs. -/
theorem deployLoop_recording_policy_witness :
    deployLoop exDeps exClient apisNone { continueOnErr := true, dryRun := false }
        [cfgSkipped] newEntityMap [] [] =
      deployLoop exDeps exClient apisNone { continueOnErr := true, dryRun := false } []
        (newEntityMap.putResolved cfgSkipped.coordinate
          { entityName := cfgSkipped.coordinate.configId, coordinate := cfgSkipped.coordinate,
            properties := [], skip := true }) [] [] ∧
    deployLoop exDeps exClient apisNone { continueOnErr := true, dryRun := false }
        [cfgUnknown] newEntityMap [] [] =
      deployLoop exDeps exClient apisNone { continueOnErr := true, dryRun := false } []
        (newEntityMap.putResolved zeroResolvedEntity.coordinate zeroResolvedEntity)
        ([] ++ [DeployErr.base "unknown api `t`. this is most likely a bug"].map
          (DeployErr.wrapped (getWordsForLogging false).2 cfgUnknown.coordinate))
        ([] ++ []) :=
  ⟨(deployLoop_recording_policy exDeps exClient apisNone
      { continueOnErr := true, dryRun := false }).1 newEntityMap [] [] cfgSkipped [] rfl,
   (deployLoop_recording_policy exDeps exClient apisNone
      { continueOnErr := true, dryRun := false }).2.2.2.2 newEntityMap [] [] cfgUnknown []
      zeroResolvedEntity [DeployErr.base "unknown api `t`. this is most likely a bug"] []
      rfl rfl (Or.inr (Or.inl rfl))⟩

/- ===================== Claim C2 ===================== -/

/-- Claim C2: an erroring config makes `DeployConfigs` return immediately
exactly when continue-on-error and dry-run are both false, in which case the
returned list is the errors accumulated so far plus the failing config's
errors, each wrapped with its coordinate and the verb `deploy`; with
continue-on-error or dry-run set the loop appends the errors wrapped with
the verb (`validate` on dry-run) and processes the remaining configs; a
config without errors never causes a return. -/
theorem deployConfigs_stop_on_error_policy (deps : DeployDeps) (client : Client)
    (apis : String → Option Api) (opts : DeployConfigsOptions) :
    (∀ (sortedConfigs : List Config),
      DeployConfigs deps client apis sortedConfigs opts =
        (deployLoop deps client apis opts sortedConfigs newEntityMap [] []).1) ∧
    (∀ (em : EntityMap) (errors : List DeployErr) (calls : List ClientCall)
       (c : Config) (rest : List Config) (entity : ResolvedEntity)
       (es : List DeployErr) (cs : List ClientCall), c.skip = false →
      deployDispatch deps client apis em c = (entity, es, cs) → es ≠ [] →
      opts.continueOnErr = false → opts.dryRun = false →
      deployLoop deps client apis opts (c :: rest) em errors calls =
        (errors ++ es.map (DeployErr.wrapped "deploy" c.coordinate), em, calls ++ cs)) ∧
    (∀ (em : EntityMap) (errors : List DeployErr) (calls : List ClientCall)
       (c : Config) (rest : List Config) (entity : ResolvedEntity)
       (es : List DeployErr) (cs : List ClientCall), c.skip = false →
      deployDispatch deps client apis em c = (entity, es, cs) → es ≠ [] →
      (opts.continueOnErr = true ∨ opts.dryRun = true) →
      deployLoop deps client apis opts (c :: rest) em errors calls =
        deployLoop deps client apis opts rest (em.putResolved entity.coordinate entity)
          (errors ++ es.map (DeployErr.wrapped
            (if opts.dryRun then "validate" else "deploy") c.coordinate))
          (calls ++ cs)) ∧
    (∀ (em : EntityMap) (errors : List DeployErr) (calls : List ClientCall)
       (c : Config) (rest : List Config) (entity : ResolvedEntity)
       (cs : List ClientCall), c.skip = false →
      deployDispatch deps client apis em c = (entity, [], cs) →
      deployLoop deps client apis opts (c :: rest) em errors calls =
        deployLoop deps client apis opts rest (em.putResolved entity.coordinate entity)
          errors (calls ++ cs)) := by
  refine ⟨fun _ => rfl, ?_, ?_, ?_⟩
  · intro em errors calls c rest entity es cs hskip hd hne hcont hdry
    simp only [deployLoop, hskip, Bool.false_eq_true, if_false, hd]
    cases es with
    | nil => exact absurd rfl hne
    | cons e es' => simp [hcont, hdry, getWordsForLogging]
  · intro em errors calls c rest entity es cs hskip hd hne hor
    simp only [deployLoop, hskip, Bool.false_eq_true, if_false, hd]
    cases es with
    | nil => exact absurd rfl hne
    | cons e es' =>
      rcases hor with h | h
      · cases hdry : opts.dryRun <;> simp [getWordsForLogging, hdry, h]
      · simp [getWordsForLogging, h]
  · intro em errors calls c rest entity cs hskip hd
    simp only [deployLoop, hskip, Bool.false_eq_true, if_false, hd]
    simp

/-- Witness for C2: the unknown-api config erroring under both flag
settings — immediate return with the `deploy`-wrapped error when both flags
are false, continuation with the `validate`-wrapped error on dry-run. -/
theorem deployConfigs_stop_on_error_witness :
    deployLoop exDeps exClient apisNone { continueOnErr := false, dryRun := false }
        [cfgUnknown, cfgUnknown] newEntityMap [] [] =
      ([] ++ [DeployErr.base "unknown api `t`. this is most likely a bug"].map
        (DeployErr.wrapped "deploy" cfgUnknown.coordinate), newEntityMap, [] ++ []) ∧
    deployLoop exDeps exClient apisNone { continueOnErr := false, dryRun := true }
        [cfgUnknown] newEntityMap [] [] =
      deployLoop exDeps exClient apisNone { continueOnErr := false, dryRun := true } []
        (newEntityMap.putResolved zeroResolvedEntity.coordinate zeroResolvedEntity)
        ([] ++ [DeployErr.base "unknown api `t`. this is most likely a bug"].map
          (DeployErr.wrapped (if true then "validate" else "deploy") cfgUnknown.coordinate))
        ([] ++ []) :=
  ⟨(deployConfigs_stop_on_error_policy exDeps exClient apisNone
      { continueOnErr := false, dryRun := false }).2.1 newEntityMap [] [] cfgUnknown
      [cfgUnknown] zeroResolvedEntity
      [DeployErr.base "unknown api `t`. this is most likely a bug"] []
      rfl rfl (by simp) rfl rfl,
   (deployConfigs_stop_on_error_policy exDeps exClient apisNone
      { continueOnErr := false, dryRun := true }).2.2.1 newEntityMap [] [] cfgUnknown
      [] zeroResolvedEntity
      [DeployErr.base "unknown api `t`. this is most likely a bug"] []
      rfl rfl (by simp) (Or.inr rfl)⟩

/- ===================== Claim C5 ===================== -/

/-- Claim C5: a classic config of a unique-name API whose extracted name the
entity map already knows yields exactly the duplicated-config-name error and
no client call; concretely, two configs of the same unique-name API both
resolving to name `N` produce exactly one upsert call and one
duplicate-name error. -/
theorem deployConfig_duplicate_name (deps : DeployDeps) (client : Client)
    (apis : String → Option Api) :
    (∀ (em : EntityMap) (conf : Config) (api : Api) (props : Properties) (name : String),
      apis conf.coordinate.type' = some api →
      api.nonUniqueNameApi = false →
      deps.resolveProperties conf em.resolved = (props, []) →
      deps.extractConfigName conf props = .ok name →
      em.known api.id name = true →
      deployConfig deps client apis em conf =
        (zeroResolvedEntity,
         [.configDeployErr conf.coordinate ("duplicated config name `" ++ name ++ "`")],
         [])) ∧
    ((DeployConfigsFull exDeps exClient exApis [cfgClassic1, cfgClassic2]
        { continueOnErr := true, dryRun := false }).2.2 =
       [ClientCall.upsertConfigByName exApi "N" "body"] ∧
     (DeployConfigsFull exDeps exClient exApis [cfgClassic1, cfgClassic2]
        { continueOnErr := true, dryRun := false }).1 =
       [DeployErr.wrapped "deploy" cfgClassic2.coordinate
         (.configDeployErr cfgClassic2.coordinate "duplicated config name `N`")]) := by
  constructor
  · intro em conf api props name hapis hnonuniq hres hname hknown
    unfold deployConfig
    rw [hapis]
    simp [hres, hname, hknown, hnonuniq]
  · constructor <;> decide

/-- Witness for C5: the duplicate branch applied at concrete inputs — an
entity map that already knows name `N` for `api1`. -/
theorem deployConfig_duplicate_name_witness :
    deployConfig exDeps exClient exApis
        { resolved := [], knownNames := [("api1", "N")] } cfgClassic2 =
      (zeroResolvedEntity,
       [.configDeployErr cfgClassic2.coordinate "duplicated config name `N`"],
       []) :=
  (deployConfig_duplicate_name exDeps exClient exApis).1
    { resolved := [], knownNames := [("api1", "N")] } cfgClassic2 exApi
    [(NameParameter, "N")] "N" rfl rfl rfl rfl rfl

/- ===================== Claim C6 ===================== -/

/-- Claim C6: when the resolved properties of a settings config have no
`scope` entry or an empty one, `deploySetting` errors and makes no client
call; when the scope is non-empty and rendering succeeds, `UpsertSettings`
is called with exactly the config's configId as id, its schemaId and
schemaVersion, the extracted scope, the rendered content and the config's
originObjectId. -/
theorem deploySetting_scope_policy (deps : DeployDeps) (client : Client) :
    (∀ (em : EntityMap) (c : Config) (props : Properties),
      deps.resolveProperties c em.resolved = (props, []) →
      (lookupA props ScopeParameter = none ∨ lookupA props ScopeParameter = some "") →
      (deploySetting deps client em c).2.1 ≠ [] ∧
      (deploySetting deps client em c).2.2 = []) ∧
    (∀ (em : EntityMap) (c : Config) (props : Properties) (s r : String),
      deps.resolveProperties c em.resolved = (props, []) →
      lookupA props ScopeParameter = some s → s ≠ "" →
      deps.render c props = .ok r →
      (deploySetting deps client em c).2.2 =
        [ClientCall.upsertSettings
          { id := c.coordinate.configId, schemaId := c.ctype.schemaId,
            schemaVersion := c.ctype.schemaVersion, scope := s,
            content := r, originObjectId := c.originObjectId }]) := by
  constructor
  · intro em c props hres hscope
    unfold deploySetting
    rcases hscope with hs | hs <;>
      simp [hres, extractScope, hs]
  · intro em c props s r hres hscope hne hrender
    unfold deploySetting
    simp only [hres, List.isEmpty_nil, if_true]
    simp only [extractScope, hscope, if_neg hne]
    simp only [hrender]
    cases client.upsertSettings
        { id := c.coordinate.configId, schemaId := c.ctype.schemaId,
          schemaVersion := c.ctype.schemaVersion, scope := s,
          content := r, originObjectId := c.originObjectId } <;> simp

/-- Witness for C6: a settings config with no scope property errors without
a call, and one with scope `HOST-1` calls `UpsertSettings` with exactly the
expected object. -/
theorem deploySetting_scope_policy_witness :
    ((deploySetting noScopeDeps exClient newEntityMap cfgSettings).2.1 ≠ [] ∧
     (deploySetting noScopeDeps exClient newEntityMap cfgSettings).2.2 = []) ∧
    (deploySetting scopeDeps exClient newEntityMap cfgSettings).2.2 =
      [ClientCall.upsertSettings
        { id := cfgSettings.coordinate.configId, schemaId := cfgSettings.ctype.schemaId,
          schemaVersion := cfgSettings.ctype.schemaVersion, scope := "HOST-1",
          content := "body", originObjectId := cfgSettings.originObjectId }] :=
  ⟨(deploySetting_scope_policy noScopeDeps exClient).1 newEntityMap cfgSettings []
      rfl (Or.inl rfl),
   (deploySetting_scope_policy scopeDeps exClient).2 newEntityMap cfgSettings
      [(ScopeParameter, "HOST-1")] "HOST-1" "body" rfl rfl (by decide) rfl⟩

/- ===================== Claim C3 ===================== -/

/-- Claim C3 counterexample: schema `s` lists one object whose value does
not unmarshal; every converted config is dropped, yet the returned map DOES
contain the entry `s -> []` — an entry mapping a schema ID to an empty
configuration list, refuting the claim that such schemas have no entry. -/
theorem download_empty_entry_exists :
    download dlDeps "proj" ["s"] = [("s", [])] := by
  decide

/-- Claim C3 (amended): the returned map has an entry for a schema exactly
when its fetch succeeded with a non-empty object list — so schemas whose
fetch failed or returned zero objects are omitted — and the entry's value is
the conversion of the fetched objects, which IS the empty list when all
objects were discarded or unparseable. -/
theorem download_entry_characterization (deps : DownloadDeps) (pn : String)
    (schemas : List String) (s : String) (cfgs : List DlConfig) :
    (s, cfgs) ∈ download deps pn schemas ↔
      s ∈ schemas ∧ ∃ objs, deps.listSettings s = .ok objs ∧ objs ≠ [] ∧
        cfgs = convertAllObjects deps pn objs := by
  induction schemas with
  | nil => simp [download]
  | cons s0 rest ih =>
    cases hls : deps.listSettings s0 with
    | error e =>
      simp only [download, hls]
      rw [ih]
      constructor
      · rintro ⟨hmem, h⟩
        exact ⟨List.mem_cons_of_mem _ hmem, h⟩
      · rintro ⟨hmem, objs, hok, hobjs, hconv⟩
        rcases List.mem_cons.mp hmem with rfl | hmem'
        · rw [hls] at hok; cases hok
        · exact ⟨hmem', objs, hok, hobjs, hconv⟩
    | ok objects =>
      by_cases hne : objects.isEmpty
      · have hobjnil : objects = [] := List.isEmpty_eq_true.mp hne
        simp only [download, hls, if_pos hne]
        rw [ih]
        constructor
        · rintro ⟨hmem, h⟩
          exact ⟨List.mem_cons_of_mem _ hmem, h⟩
        · rintro ⟨hmem, objs, hok, hobjs, hconv⟩
          rcases List.mem_cons.mp hmem with rfl | hmem'
          · rw [hls] at hok
            cases hok
            exact absurd hobjnil hobjs
          · exact ⟨hmem', objs, hok, hobjs, hconv⟩
      · have hobjne : objects ≠ [] := by
          intro hnil
          rw [hnil] at hne
          exact hne rfl
        simp only [download, hls, if_neg hne]
        rw [List.mem_cons, ih]
        constructor
        · rintro (heq | ⟨hmem, h⟩)
          · obtain ⟨h1, h2⟩ := Prod.mk.injEq .. ▸ heq
            subst h1
            exact ⟨List.mem_cons_self _ _, objects, hls, hobjne, h2⟩
          · exact ⟨List.mem_cons_of_mem _ hmem, h⟩
        · rintro ⟨hmem, objs, hok, hobjs, hconv⟩
          rcases List.mem_cons.mp hmem with rfl | hmem'
          · left
            rw [hls] at hok
            cases hok
            rw [hconv]
          · right
            exact ⟨hmem', objs, hok, hobjs, hconv⟩
